import Mathlib

/-!
Verification of the `ran2` long-period uniform deviate generator and the
fatal-error checks of the `problem` initialization routine from
`src/prob/hgb.c` (Athena shearing-box problem generator).

The generator state (the C statics `idum2`, `iy`, `iv[NTAB]` together with
the caller's `idum`) is embedded as an explicit record of integers; every
integer operation of the C source is mirrored exactly, with C `long`
division (truncation toward zero) rendered as `Int.tdiv`.  An out-of-bounds
access to the 32-entry shuffle table `iv` is undefined behavior in C and is
modelled by returning `none`.  The final `double` scaling
`temp = AM*iy; return (temp > RNMX) ? RNMX : temp` is a pure function of the
freshly cached `iy` and is modelled over exact rationals by `ran2Scale`.
-/

/-- Constant `IM1` from hgb.c: modulus of the primary recurrence. -/
def IM1 : Int := 2147483563

/-- Constant `IM2` from hgb.c: modulus of the secondary recurrence. -/
def IM2 : Int := 2147483399

/-- Constant `IMM1 = IM1 - 1` from hgb.c. -/
def IMM1 : Int := IM1 - 1

/-- Constant `IA1` from hgb.c: multiplier of the primary recurrence. -/
def IA1 : Int := 40014

/-- Constant `IA2` from hgb.c: multiplier of the secondary recurrence. -/
def IA2 : Int := 40692

/-- Constant `IQ1 = IM1 / IA1` from hgb.c (Schrage quotient). -/
def IQ1 : Int := 53668

/-- Constant `IQ2 = IM2 / IA2` from hgb.c (Schrage quotient). -/
def IQ2 : Int := 52774

/-- Constant `IR1 = IM1 mod IA1` from hgb.c (Schrage remainder). -/
def IR1 : Int := 12211

/-- Constant `IR2 = IM2 mod IA2` from hgb.c (Schrage remainder). -/
def IR2 : Int := 3791

/-- Constant `NTAB` from hgb.c: size of the shuffle table. -/
def NTAB : Nat := 32

/-- Constant `NDIV = (1+IMM1/NTAB)` from hgb.c, with C integer division. -/
def NDIV : Int := 1 + IMM1 / 32

/-- Constant `AM = 1.0/IM1` from hgb.c, modelled as an exact rational. -/
def AM : Rat := 1 / (IM1 : Rat)

/-- Modelled from the spec: `DBL_EPSILON` comes from the C header `float.h`,
which is not part of this repository.  The spec calls it `machine_epsilon`
of the double type; for IEEE-754 binary64 doubles it is 2 to the power -52. -/
def DBL_EPSILON : Rat := 1 / (4503599627370496 : Rat)

/-- Constant `RNMX = 1.0 - DBL_EPSILON` from hgb.c. -/
def RNMX : Rat := 1 - DBL_EPSILON

/-- The primary Schrage step from hgb.c (also used for the warm-up loop):
`k = idum/IQ1; idum = IA1*(idum-k*IQ1) - k*IR1; if (idum < 0) idum += IM1`.
C `long` division truncates toward zero, hence `Int.tdiv`. -/
def schrage1 (v : Int) : Int :=
  let k := v.tdiv IQ1
  let w := IA1 * (v - k * IQ1) - k * IR1
  if w < 0 then w + IM1 else w

/-- The secondary Schrage step from hgb.c:
`k = idum2/IQ2; idum2 = IA2*(idum2-k*IQ2) - k*IR2; if (idum2 < 0) idum2 += IM2`. -/
def schrage2 (v : Int) : Int :=
  let k := v.tdiv IQ2
  let w := IA2 * (v - k * IQ2) - k * IR2
  if w < 0 then w + IM2 else w

/-- The generator state: the caller's seed variable `*idum` together with
the C statics `idum2`, `iv[NTAB]` and `iy` of `ran2`. -/
structure Ran2State where
  idum : Int
  idum2 : Int
  iv : List Int
  iy : Int
deriving DecidableEq

/-- The warm-up loop of `ran2`:
`for (j=NTAB+7;j>=0;j--) { <schrage step>; if (j < NTAB) iv[j] = *idum; }`.
The argument counts the remaining iterations; at the step with counter
`j+1` the C loop variable has value `j`. -/
def initLoop : Nat → Int → List Int → Int × List Int
  | 0, v, iv => (v, iv)
  | j+1, v, iv =>
      let v' := schrage1 v
      initLoop j v' (if j < NTAB then iv.set j v' else iv)

/-- The initialization branch of `ran2` (taken when `*idum <= 0`):
normalize the seed, copy it into `idum2`, run the 40-iteration warm-up
loop, and set `iy = iv[0]`. -/
def ran2InitState (s : Ran2State) : Ran2State :=
  let idum0 : Int := if -s.idum < 1 then 1 else -s.idum
  let p := initLoop (NTAB + 8) idum0 s.iv
  { idum := p.1, idum2 := idum0, iv := p.2, iy := p.2.getD 0 0 }

/-- The steady-state integer update of one `ran2` call, starting from the
line `k=(*idum)/IQ1` that follows the initialization branch.  Returns
`none` when the shuffle index `j = iy/NDIV` falls outside the bounds of the
32-entry table `iv` (an out-of-bounds array access, undefined behavior in
the C source). -/
def steadyStep (s : Ran2State) : Option Ran2State :=
  let idum1 := schrage1 s.idum
  let idum2a := schrage2 s.idum2
  let j := s.iy.tdiv NDIV
  if 0 ≤ j ∧ j < 32 then
    let iy0 := s.iv.getD j.toNat 0 - idum2a
    let iv1 := s.iv.set j.toNat idum1
    let iy1 := if iy0 < 1 then iy0 + IMM1 else iy0
    some { idum := idum1, idum2 := idum2a, iv := iv1, iy := iy1 }
  else
    none

/-- The state transition of one full `ran2` call: the initialization branch
runs first exactly when `*idum <= 0`, and the steady-state step always
follows it. -/
def ran2Call (s : Ran2State) : Option Ran2State :=
  if s.idum ≤ 0 then steadyStep (ran2InitState s) else steadyStep s

/-- The final scaling of `ran2`:
`if ((temp=AM*iy) > RNMX) return RNMX; else return temp;` -- a pure
function of the freshly cached `iy`, over exact rationals. -/
def ran2Scale (y : Int) : Rat :=
  let temp := AM * (y : Rat)
  if temp > RNMX then RNMX else temp

/-- One full `ran2` call: the returned deviate together with the mutated
state.  `none` models the undefined out-of-bounds table access. -/
def ran2 (s : Ran2State) : Option (Rat × Ran2State) :=
  (ran2Call s).map fun t => (ran2Scale t.iy, t)

/-- The state after `n` successive `ran2` calls. -/
def ran2Iter (s : Ran2State) : Nat → Option Ran2State
  | 0 => some s
  | n+1 => (ran2Iter s n).bind ran2Call

/-- The value returned by the `(n+1)`-st `ran2` call (0-based index `n`). -/
def ran2Out (s : Ran2State) (n : Nat) : Option Rat :=
  (ran2Iter s n).bind fun t => (ran2 t).map Prod.fst

/-- A caller's starting state: the seed variable holds `seed` and the C
statics have their load-time values `idum2 = 123456789`, `iy = 0` and a
zero-filled table (static storage is zero-initialized in C). -/
def freshState (seed : Int) : Ran2State :=
  { idum := seed, idum2 := 123456789, iv := List.replicate NTAB 0, iy := 0 }

/-- Iterates of the primary Schrage step. -/
def schragePow : Nat → Int → Int
  | 0, v => v
  | n+1, v => schrage1 (schragePow n v)

/-- Weak state invariant: enough to keep the shuffle index in bounds and
every output strictly inside (0,1).  The table entries and the secondary
state are only known to be nonnegative (a fresh caller state has a
zero-filled table). -/
def Ran2WeakInv (s : Ran2State) : Prop :=
  1 ≤ s.idum ∧ s.idum ≤ 2147483562 ∧
  0 ≤ s.idum2 ∧ s.idum2 ≤ 2147483562 ∧
  0 ≤ s.iy ∧ s.iy ≤ 2147483562 ∧
  s.iv.length = 32 ∧
  ∀ i : Nat, i < 32 → 0 ≤ s.iv.getD i 0 ∧ s.iv.getD i 0 ≤ 2147483562

/-- Strong state invariant, established by initialization from a seed of
magnitude at most `IM2 - 1`: primary state in `[1, IM1-1]`, secondary state
in `[1, IM2-1]`, cached selector in `[1, IM1-1]`, table entries in
`[1, IM1-1]`. -/
def Ran2Inv (s : Ran2State) : Prop :=
  1 ≤ s.idum ∧ s.idum ≤ 2147483562 ∧
  1 ≤ s.idum2 ∧ s.idum2 ≤ 2147483398 ∧
  1 ≤ s.iy ∧ s.iy ≤ 2147483562 ∧
  s.iv.length = 32 ∧
  ∀ i : Nat, i < 32 → 1 ≤ s.iv.getD i 0 ∧ s.iv.getD i 0 ≤ 2147483562

/-- The distinct fatal-diagnostic sites of the `problem` routine that the
claims cover: unsupported grid dimensionality, an input data file of the
`ipert == 4` density-wave mode that cannot be opened, and domain bounds
other than the ones this mode requires. -/
inductive ProblemError where
  | gridDim
  | fileOpen160
  | fileOpen40
  | xminMismatch
  | xmaxMismatch
deriving DecidableEq

/-- The part of the host environment read by the fatal checks of
`problem`: the grid sizes, whether each tabulated data file can be opened,
the perturbation mode, and the `x1` domain bounds. -/
structure ProblemEnv where
  Nx1 : Int
  Nx2 : Int
  file160 : Bool
  file40 : Bool
  ipert : Int
  x1min : Rat
  x1max : Rat

/-- Modelled from the spec: `ath_error`, `par_getd`, `par_geti_def` and
`fopen` are host-framework code not contained in this repository.  Per the
spec, `ath_error` is a process-terminating diagnostic with no retry or
recovery, so the fatal checks of `problem` are modelled as an `Except`
value: `error` is the terminating diagnostic, and `ok` means control
reaches the field-initialization loops that follow the checks.  The checks
appear in source order: the `Nx2 == 1` grid test, then (only for
`ipert == 4`) the `Data-160-FPwave.dat` open for `Nx1 == 160`, the
`Data-40-FPwave.dat` open for `Nx1 == 40`, then the `x1min != -4.7965` and
`x1max != 4.7965` bound tests, with the double comparisons idealized as
exact rationals. -/
def problemChecks (e : ProblemEnv) : Except ProblemError Unit :=
  if e.Nx2 = 1 then Except.error ProblemError.gridDim
  else if e.ipert = 4 then
    if e.Nx1 = 160 ∧ e.file160 = false then
      Except.error ProblemError.fileOpen160
    else if e.Nx1 = 40 ∧ e.file40 = false then
      Except.error ProblemError.fileOpen40
    else if e.x1min ≠ -(47965 / 10000 : Rat) then
      Except.error ProblemError.xminMismatch
    else if e.x1max ≠ (47965 / 10000 : Rat) then
      Except.error ProblemError.xmaxMismatch
    else Except.ok ()
  else Except.ok ()

/-- Modelled from the spec: the grid field values are committed only by the
initialization loops that run after every fatal check has passed, so a
failing check commits nothing. -/
def problemCommitsFields (e : ProblemEnv) : Bool :=
  match problemChecks e with
  | Except.ok _ => true
  | Except.error _ => false

/-- Claim C1: the primary Schrage-factorized update sends a state
`1 ≤ idum ≤ 2147483562` to `(40014 * idum) mod 2147483563`, the secondary
update sends `1 ≤ idum2 ≤ 2147483398` to `(40692 * idum2) mod 2147483399`,
and every intermediate value of both updates fits in a (at least 32-bit
wide) C `long int`. -/
theorem ran2_schrage_step_correct :
    (∀ v : Int, 1 ≤ v → v ≤ 2147483562 →
      schrage1 v = (40014 * v) % 2147483563 ∧
      (0 ≤ v.tdiv IQ1 ∧ v.tdiv IQ1 ≤ 40014) ∧
      (0 ≤ v.tdiv IQ1 * IQ1 ∧ v.tdiv IQ1 * IQ1 ≤ 2147483562) ∧
      (0 ≤ IA1 * (v - v.tdiv IQ1 * IQ1) ∧
        IA1 * (v - v.tdiv IQ1 * IQ1) ≤ 2147483647) ∧
      (0 ≤ v.tdiv IQ1 * IR1 ∧ v.tdiv IQ1 * IR1 ≤ 2147483647) ∧
      (-2147483647 ≤ IA1 * (v - v.tdiv IQ1 * IQ1) - v.tdiv IQ1 * IR1 ∧
        IA1 * (v - v.tdiv IQ1 * IQ1) - v.tdiv IQ1 * IR1 ≤ 2147483647)) ∧
    (∀ u : Int, 1 ≤ u → u ≤ 2147483398 →
      schrage2 u = (40692 * u) % 2147483399 ∧
      (0 ≤ u.tdiv IQ2 ∧ u.tdiv IQ2 ≤ 40692) ∧
      (0 ≤ u.tdiv IQ2 * IQ2 ∧ u.tdiv IQ2 * IQ2 ≤ 2147483398) ∧
      (0 ≤ IA2 * (u - u.tdiv IQ2 * IQ2) ∧
        IA2 * (u - u.tdiv IQ2 * IQ2) ≤ 2147483647) ∧
      (0 ≤ u.tdiv IQ2 * IR2 ∧ u.tdiv IQ2 * IR2 ≤ 2147483647) ∧
      (-2147483647 ≤ IA2 * (u - u.tdiv IQ2 * IQ2) - u.tdiv IQ2 * IR2 ∧
        IA2 * (u - u.tdiv IQ2 * IQ2) - u.tdiv IQ2 * IR2 ≤ 2147483647)) := by
  constructor
  · intro v h1 h2
    rw [schrage1, IA1, IQ1, IR1, IM1,
      Int.tdiv_eq_ediv (by omega) (by omega)]
    refine ⟨?_, ?_, ?_, ?_, ?_, ?_⟩ <;> first
      | (split <;> omega)
      | omega
  · intro u h1 h2
    rw [schrage2, IA2, IQ2, IR2, IM2,
      Int.tdiv_eq_ediv (by omega) (by omega)]
    refine ⟨?_, ?_, ?_, ?_, ?_, ?_⟩ <;> first
      | (split <;> omega)
      | omega

/-- Witness for C1 at `idum = 123456789` and `idum2 = 987654321`. -/
theorem ran2_schrage_step_correct_witness :
    schrage1 123456789 = (40014 * 123456789) % 2147483563 ∧
    schrage2 987654321 = (40692 * 987654321) % 2147483399 :=
  ⟨((ran2_schrage_step_correct.1 123456789 (by decide) (by decide)).1),
   ((ran2_schrage_step_correct.2 987654321 (by decide) (by decide)).1)⟩

/-- The primary Schrage step computes `(IA1 * v) mod IM1` on `[0, IM1]`. -/
lemma schrage1_eq_emod (v : Int) (h1 : 0 ≤ v) (h2 : v ≤ 2147483563) :
    schrage1 v = (40014 * v) % 2147483563 := by
  rw [schrage1, IA1, IQ1, IR1, IM1, Int.tdiv_eq_ediv (by omega) (by omega)]
  split <;> omega

/-- The secondary Schrage step computes `(IA2 * v) mod IM2`; the Schrage
bounds hold on all of `[0, IMM1]`, not only below `IM2`. -/
lemma schrage2_eq_emod (v : Int) (h1 : 0 ≤ v) (h2 : v ≤ 2147483562) :
    schrage2 v = (40692 * v) % 2147483399 := by
  rw [schrage2, IA2, IQ2, IR2, IM2, Int.tdiv_eq_ediv (by omega) (by omega)]
  split <;> omega

/-- The multiplier `IA1` is coprime to the modulus `IM1`, so the primary
recurrence never maps a nonzero residue to zero. -/
lemma schrage1_ne_zero (v : Int) (h1 : 1 ≤ v) (h2 : v ≤ 2147483562) :
    1 ≤ schrage1 v := by
  rw [schrage1_eq_emod v (by omega) (by omega)]
  have hnn : 0 ≤ (40014 * v) % 2147483563 := Int.emod_nonneg _ (by omega)
  rcases hnn.lt_or_eq with h | h
  · omega
  · exfalso
    have hdvd : (2147483563 : Int) ∣ 40014 * v :=
      Int.dvd_of_emod_eq_zero h.symm
    have hcop : IsCoprime (2147483563 : Int) 40014 := by
      rw [Int.isCoprime_iff_gcd_eq_one]; decide
    have hv : (2147483563 : Int) ∣ v := hcop.dvd_of_dvd_mul_left hdvd
    have := Int.le_of_dvd (by omega) hv
    omega

/-- The multiplier `IA2` is coprime to the modulus `IM2`. -/
lemma schrage2_ne_zero (v : Int) (h1 : 1 ≤ v) (h2 : v ≤ 2147483398) :
    1 ≤ schrage2 v := by
  rw [schrage2_eq_emod v (by omega) (by omega)]
  have hnn : 0 ≤ (40692 * v) % 2147483399 := Int.emod_nonneg _ (by omega)
  rcases hnn.lt_or_eq with h | h
  · omega
  · exfalso
    have hdvd : (2147483399 : Int) ∣ 40692 * v :=
      Int.dvd_of_emod_eq_zero h.symm
    have hcop : IsCoprime (2147483399 : Int) 40692 := by
      rw [Int.isCoprime_iff_gcd_eq_one]; decide
    have hv : (2147483399 : Int) ∣ v := hcop.dvd_of_dvd_mul_left hdvd
    have := Int.le_of_dvd (by omega) hv
    omega

/-- Range of the primary step on in-range inputs. -/
lemma schrage1_range (v : Int) (h1 : 0 ≤ v) (h2 : v ≤ 2147483562) :
    0 ≤ schrage1 v ∧ schrage1 v ≤ 2147483562 := by
  rw [schrage1_eq_emod v (by omega) (by omega)]
  have := Int.emod_nonneg (40014 * v) (b := 2147483563) (by omega)
  have := Int.emod_lt_of_pos (40014 * v) (b := 2147483563) (by omega)
  omega

/-- Range of the secondary step: any input in `[0, IMM1]` lands in
`[0, IM2 - 1]`. -/
lemma schrage2_range (v : Int) (h1 : 0 ≤ v) (h2 : v ≤ 2147483562) :
    0 ≤ schrage2 v ∧ schrage2 v ≤ 2147483398 := by
  rw [schrage2_eq_emod v (by omega) (by omega)]
  have := Int.emod_nonneg (40692 * v) (b := 2147483399) (by omega)
  have := Int.emod_lt_of_pos (40692 * v) (b := 2147483399) (by omega)
  omega

/-- Any value of magnitude at most `IM1` is brought into `[0, IMM1]` by one
primary Schrage step (the C `if (idum < 0) idum += IM1` correction is
sufficient in this band). -/
lemma schrage1_into_range (v : Int) (h1 : -2147483563 ≤ v)
    (h2 : v ≤ 2147483563) :
    0 ≤ schrage1 v ∧ schrage1 v ≤ 2147483562 := by
  rcases le_or_lt 0 v with hv | hv
  · rw [schrage1, IA1, IQ1, IR1, IM1, Int.tdiv_eq_ediv (by omega) (by omega)]
    split <;> omega
  · have hneg : v.tdiv 53668 = -((-v).tdiv 53668) := by
      rw [← Int.neg_tdiv, neg_neg]
    rw [schrage1, IA1, IQ1, IR1, IM1, hneg,
      Int.tdiv_eq_ediv (by omega) (by omega)]
    split <;> omega

/-- Outside the band `[-IM1, IM1]` one primary Schrage step either lands in
`[0, IMM1]` or shrinks the magnitude by a factor of at least four. -/
lemma schrage1_contract (v : Int)
    (h : 2147483563 < v ∨ v < -2147483563) :
    (0 ≤ schrage1 v ∧ schrage1 v ≤ 2147483562) ∨
    4 * (schrage1 v).natAbs ≤ v.natAbs := by
  rcases h with hv | hv
  · rw [schrage1, IA1, IQ1, IR1, IM1, Int.tdiv_eq_ediv (by omega) (by omega)]
    split <;> omega
  · have hneg : v.tdiv 53668 = -((-v).tdiv 53668) := by
      rw [← Int.neg_tdiv, neg_neg]
    rw [schrage1, IA1, IQ1, IR1, IM1, hneg,
      Int.tdiv_eq_ediv (by omega) (by omega)]
    split <;> omega

/-- `schragePow` unfolds on the left. -/
lemma schragePow_succ_left (n : Nat) (v : Int) :
    schragePow (n + 1) v = schragePow n (schrage1 v) := by
  induction n with
  | zero => rfl
  | succ m ih =>
      rw [schragePow, ih, schragePow]

/-- `schragePow` is iteration, hence additive in the exponent. -/
lemma schragePow_add (m n : Nat) (v : Int) :
    schragePow (m + n) v = schragePow m (schragePow n v) := by
  induction m with
  | zero => simp [schragePow]
  | succ k ih => rw [Nat.succ_add, schragePow, ih, schragePow]

/-- In-range values stay in range under iterated primary steps. -/
lemma schragePow_range (n : Nat) (v : Int) (h1 : 0 ≤ v)
    (h2 : v ≤ 2147483562) :
    0 ≤ schragePow n v ∧ schragePow n v ≤ 2147483562 := by
  induction n with
  | zero => exact ⟨h1, h2⟩
  | succ m ih =>
      rw [schragePow]
      exact schrage1_range _ ih.1 ih.2

/-- Nonzero in-range values stay nonzero and in range under iterated
primary steps. -/
lemma schragePow_pos (n : Nat) (v : Int) (h1 : 1 ≤ v)
    (h2 : v ≤ 2147483562) :
    1 ≤ schragePow n v ∧ schragePow n v ≤ 2147483562 := by
  induction n with
  | zero => exact ⟨h1, h2⟩
  | succ m ih =>
      rw [schragePow]
      exact ⟨schrage1_ne_zero _ ih.1 ih.2, (schrage1_range _ (by omega) ih.2).2⟩

/-- Any value of magnitude at most `IM1 * 4 ^ n` is brought into
`[0, IMM1]` by `n + 1` primary Schrage steps. -/
lemma schragePow_into (n : Nat) : ∀ v : Int,
    v.natAbs ≤ 2147483563 * 4 ^ n →
    0 ≤ schragePow (n + 1) v ∧ schragePow (n + 1) v ≤ 2147483562 := by
  induction n with
  | zero =>
      intro v hv
      rw [schragePow, schragePow]
      simp only [pow_zero, mul_one] at hv
      exact schrage1_into_range v (by omega) (by omega)
  | succ m ih =>
      intro v hv
      rw [schragePow_succ_left]
      rcases le_or_lt v.natAbs 2147483563 with hsmall | hbig
      · have h1 := schrage1_into_range v (by omega) (by omega)
        have := schragePow_range (m + 1) (schrage1 v) h1.1 h1.2
        exact this
      · have hc := schrage1_contract v (by omega)
        rcases hc with hgood | hshrk
        · exact schragePow_range (m + 1) (schrage1 v) hgood.1 hgood.2
        · apply ih
          have hp : (4 : Nat) ^ (m + 1) = 4 * 4 ^ m := by ring
          rw [hp] at hv
          omega

/-- `getD` after `set` at the written index. -/
lemma getD_set_self (l : List Int) (i : Nat) (h : i < l.length) (x : Int) :
    (l.set i x).getD i 0 = x := by
  simp [List.getD_eq_getElem?_getD, List.getElem?_set_self, h]

/-- `getD` after `set` at a different index. -/
lemma getD_set_ne (l : List Int) (i j : Nat) (h : i ≠ j) (x : Int) :
    (l.set i x).getD j 0 = l.getD j 0 := by
  simp [List.getD_eq_getElem?_getD, List.getElem?_set_ne h]

/-- Two lists of equal length with equal `getD` entries are equal. -/
lemma list_ext_getD (a b : List Int) (h : a.length = b.length)
    (h2 : ∀ i : Nat, i < a.length → a.getD i 0 = b.getD i 0) : a = b := by
  apply List.ext_getElem h
  intro i h1 hh
  have := h2 i h1
  simpa [List.getD_eq_getElem?_getD, List.getElem?_eq_getElem, h1, hh]
    using this

/-- The warm-up loop does not change the table length. -/
lemma initLoop_length (n : Nat) : ∀ (v : Int) (iv : List Int),
    (initLoop n v iv).2.length = iv.length := by
  induction n with
  | zero => intro v iv; rfl
  | succ m ih =>
      intro v iv
      rw [initLoop, ih]
      split <;> simp

/-- The running value of the warm-up loop is the iterated Schrage step. -/
lemma initLoop_fst (n : Nat) : ∀ (v : Int) (iv : List Int),
    (initLoop n v iv).1 = schragePow n v := by
  induction n with
  | zero => intro v iv; rfl
  | succ m ih =>
      intro v iv
      rw [initLoop, ih, ← schragePow_succ_left]

/-- Closed form of the warm-up table: running `n` iterations fills slot `j`
(for `j < n`) with the `(n-j)`-th iterate, in reverse fill order. -/
lemma initLoop_getD (n : Nat) : ∀ (v : Int) (iv : List Int),
    32 ≤ iv.length → ∀ j : Nat, j < 32 →
    (initLoop n v iv).2.getD j 0 =
      if j < n then schragePow (n - j) v else iv.getD j 0 := by
  induction n with
  | zero =>
      intro v iv _ j _
      simp [initLoop]
  | succ m ih =>
      intro v iv hlen j hj
      rw [initLoop, show NTAB = 32 from rfl]
      have hlen' : 32 ≤ (if m < 32 then iv.set m (schrage1 v) else iv).length := by
        split <;> simpa using hlen
      rw [ih (schrage1 v) _ hlen' j hj]
      rcases Nat.lt_trichotomy j m with hlt | heq | hgt
      · rw [if_pos hlt, if_pos (show j < m + 1 by omega),
          show m + 1 - j = (m - j) + 1 by omega, schragePow_succ_left]
      · subst heq
        rw [if_neg (show ¬ (j < j) by omega), if_pos (show j < j + 1 by omega),
          if_pos hj, getD_set_self _ _ (by omega) _,
          show j + 1 - j = 1 by omega]
        rfl
      · rw [if_neg (show ¬ (j < m) by omega),
          if_neg (show ¬ (j < m + 1) by omega)]
        split
        · rw [getD_set_ne _ _ _ (by omega) _]
        · rfl

/-- Unfolding of the steady-state step when the shuffle index is in
bounds. -/
lemma steadyStep_eq (s : Ran2State)
    (h : 0 ≤ s.iy.tdiv NDIV ∧ s.iy.tdiv NDIV < 32) :
    steadyStep s = some
      { idum := schrage1 s.idum
        idum2 := schrage2 s.idum2
        iv := s.iv.set (s.iy.tdiv NDIV).toNat (schrage1 s.idum)
        iy :=
          if s.iv.getD (s.iy.tdiv NDIV).toNat 0 - schrage2 s.idum2 < 1
          then s.iv.getD (s.iy.tdiv NDIV).toNat 0 - schrage2 s.idum2 + IMM1
          else s.iv.getD (s.iy.tdiv NDIV).toNat 0 - schrage2 s.idum2 } := by
  show (if 0 ≤ s.iy.tdiv NDIV ∧ s.iy.tdiv NDIV < 32 then _ else none) = _
  rw [if_pos h]

/-- For a nonnegative in-range selector, the shuffle index is in
`[0, 31]`. -/
lemma ran2_j_bounds (y : Int) (h1 : 0 ≤ y) (h2 : y ≤ 2147483562) :
    0 ≤ y.tdiv NDIV ∧ y.tdiv NDIV < 32 := by
  have hN : NDIV = 67108862 := by decide
  rw [hN, Int.tdiv_eq_ediv h1 (by omega)]
  omega

/-- Preservation of the weak invariant by the steady-state step; the fresh
selector moreover becomes strictly positive. -/
lemma steadyStep_weak (s : Ran2State) (h : Ran2WeakInv s) :
    ∃ t, steadyStep s = some t ∧ Ran2WeakInv t ∧ 1 ≤ t.iy := by
  obtain ⟨h1, h2, h3, h4, h5, h6, hlen, htab⟩ := h
  have hj := ran2_j_bounds s.iy h5 h6
  have hjn : (s.iy.tdiv NDIV).toNat < 32 := by omega
  have hivj := htab (s.iy.tdiv NDIV).toNat hjn
  have hi1 := schrage1_ne_zero s.idum h1 h2
  have hi2 := schrage1_range s.idum (by omega) h2
  have hs2 := schrage2_range s.idum2 h3 h4
  have hIMM1 : IMM1 = 2147483562 := by decide
  refine ⟨_, steadyStep_eq s hj, ⟨?_, ?_, ?_, ?_, ?_, ?_, ?_, ?_⟩, ?_⟩
  · exact hi1
  · exact hi2.2
  · exact hs2.1
  · show schrage2 s.idum2 ≤ 2147483562
    omega
  · simp only
    split <;> omega
  · simp only
    split <;> omega
  · simpa using hlen
  · intro i hi
    simp only
    rcases eq_or_ne (s.iy.tdiv NDIV).toNat i with hEq | hNe
    · rw [← hEq, getD_set_self _ _ (by omega) _]
      omega
    · rw [getD_set_ne _ _ _ hNe _]
      exact htab i hi
  · simp only
    split <;> omega

/-- Preservation of the strong invariant by the steady-state step. -/
lemma steadyStep_strong (s : Ran2State) (h : Ran2Inv s) :
    ∃ t, steadyStep s = some t ∧ Ran2Inv t := by
  obtain ⟨h1, h2, h3, h4, h5, h6, hlen, htab⟩ := h
  have hj := ran2_j_bounds s.iy (by omega) h6
  have hjn : (s.iy.tdiv NDIV).toNat < 32 := by omega
  have hivj := htab (s.iy.tdiv NDIV).toNat hjn
  have hi1 := schrage1_ne_zero s.idum h1 h2
  have hi2 := schrage1_range s.idum (by omega) h2
  have hs2u := schrage2_range s.idum2 (by omega) (by omega)
  have hs2l := schrage2_ne_zero s.idum2 h3 h4
  have hIMM1 : IMM1 = 2147483562 := by decide
  refine ⟨_, steadyStep_eq s hj, ?_, ?_, ?_, ?_, ?_, ?_, ?_, ?_⟩
  · exact hi1
  · exact hi2.2
  · exact hs2l
  · show schrage2 s.idum2 ≤ 2147483398
    omega
  · simp only
    split <;> omega
  · simp only
    split <;> omega
  · simpa using hlen
  · intro i hi
    simp only
    rcases eq_or_ne (s.iy.tdiv NDIV).toNat i with hEq | hNe
    · rw [← hEq, getD_set_self _ _ (by omega) _]
      omega
    · rw [getD_set_ne _ _ _ hNe _]
      exact htab i hi

/-- `getD` on a zero-filled table. -/
lemma getD_replicate (i : Nat) :
    (List.replicate 32 (0 : Int)).getD i 0 = 0 := by
  rw [List.getD_eq_getElem?_getD, List.getElem?_replicate]
  split <;> rfl

/-- The primary state produced by the initialization branch is the 40th
iterate of the normalized seed. -/
lemma ran2InitState_idum (s : Ran2State) :
    (ran2InitState s).idum =
      schragePow 40 (if -s.idum < 1 then 1 else -s.idum) := by
  have h40 : NTAB + 8 = 40 := rfl
  simp only [ran2InitState, h40]
  exact initLoop_fst 40 _ _

/-- The secondary seed produced by the initialization branch is the
normalized seed itself. -/
lemma ran2InitState_idum2 (s : Ran2State) :
    (ran2InitState s).idum2 = (if -s.idum < 1 then 1 else -s.idum) := by
  simp only [ran2InitState]

/-- The initialization branch does not change the table length. -/
lemma ran2InitState_length (s : Ran2State) :
    (ran2InitState s).iv.length = s.iv.length := by
  simp only [ran2InitState]
  exact initLoop_length _ _ _

/-- The cached selector produced by the initialization branch is `iv[0]`,
which is the 40th iterate of the normalized seed. -/
lemma ran2InitState_iy (s : Ran2State) (hlen : s.iv.length = 32) :
    (ran2InitState s).iy =
      schragePow 40 (if -s.idum < 1 then 1 else -s.idum) := by
  have h40 : NTAB + 8 = 40 := rfl
  simp only [ran2InitState, h40]
  rw [initLoop_getD 40 _ _ (by omega) 0 (by omega)]
  norm_num

/-- Slot `j` of the table produced by the initialization branch holds the
`(40-j)`-th iterate of the normalized seed: the first 8 of the 40 warm-up
results are discarded and the table is filled in reverse order. -/
lemma ran2InitState_getD (s : Ran2State) (hlen : s.iv.length = 32)
    (j : Nat) (hj : j < 32) :
    (ran2InitState s).iv.getD j 0 =
      schragePow (40 - j) (if -s.idum < 1 then 1 else -s.idum) := by
  have h40 : NTAB + 8 = 40 := rfl
  simp only [ran2InitState, h40]
  rw [initLoop_getD 40 _ _ (by omega) j hj, if_pos (by omega)]

/-- Initialization from a non-positive seed of magnitude at most `IMM1`
establishes the weak invariant. -/
lemma ran2InitState_weak (s : Ran2State) (hlen : s.iv.length = 32)
    (hs1 : -2147483562 ≤ s.idum) (hs2 : s.idum ≤ 0) :
    Ran2WeakInv (ran2InitState s) := by
  have hv0 : 1 ≤ (if -s.idum < 1 then 1 else -s.idum) ∧
      (if -s.idum < 1 then 1 else -s.idum) ≤ 2147483562 := by
    split <;> omega
  have hidum := ran2InitState_idum s
  have hidum2 := ran2InitState_idum2 s
  have hiy := ran2InitState_iy s hlen
  have hl : (ran2InitState s).iv.length = 32 := by
    rw [ran2InitState_length, hlen]
  have h40 := schragePow_pos 40 _ hv0.1 hv0.2
  refine ⟨by omega, by omega, by omega, by omega, by omega, by omega, hl, ?_⟩
  intro i hi
  rw [ran2InitState_getD s hlen i hi]
  have := schragePow_pos (40 - i) _ hv0.1 hv0.2
  omega

/-- Initialization from a non-positive seed of magnitude at most `IM2 - 1`
establishes the strong invariant. -/
lemma ran2InitState_strong (s : Ran2State) (hlen : s.iv.length = 32)
    (hs1 : -2147483398 ≤ s.idum) (hs2 : s.idum ≤ 0) :
    Ran2Inv (ran2InitState s) := by
  have hv0 : 1 ≤ (if -s.idum < 1 then 1 else -s.idum) ∧
      (if -s.idum < 1 then 1 else -s.idum) ≤ 2147483398 := by
    split <;> omega
  have hidum := ran2InitState_idum s
  have hidum2 := ran2InitState_idum2 s
  have hiy := ran2InitState_iy s hlen
  have hl : (ran2InitState s).iv.length = 32 := by
    rw [ran2InitState_length, hlen]
  have h40 := schragePow_pos 40 _ hv0.1 (by omega)
  refine ⟨by omega, by omega, by omega, by omega, by omega, by omega, hl, ?_⟩
  intro i hi
  rw [ran2InitState_getD s hlen i hi]
  have := schragePow_pos (40 - i) _ hv0.1 (by omega)
  omega

/-- The scale factor `AM` is positive. -/
lemma AM_pos : 0 < AM := by
  norm_num [AM, IM1]

/-- The clamp bound `RNMX` lies strictly between 0 and 1. -/
lemma RNMX_bounds : 0 < RNMX ∧ RNMX < 1 := by
  norm_num [RNMX, DBL_EPSILON]

/-- Every scaled output is strictly below 1 (by the clamp). -/
lemma ran2Scale_lt_one (y : Int) : ran2Scale y < 1 := by
  simp only [ran2Scale]
  split
  · exact RNMX_bounds.2
  · have h := not_lt.mp (by assumption : ¬ RNMX < AM * (y : Rat))
    linarith [RNMX_bounds.2]

/-- A positive selector scales to a strictly positive output. -/
lemma ran2Scale_pos (y : Int) (h : 1 ≤ y) : 0 < ran2Scale y := by
  simp only [ran2Scale]
  split
  · exact RNMX_bounds.1
  · have hy : (1 : Rat) ≤ (y : Rat) := by exact_mod_cast h
    have := AM_pos
    nlinarith

/-- In-range selectors are never clamped: the scaled value is exactly
`AM * iy`. -/
lemma ran2Scale_noclamp (y : Int) (h : y ≤ 2147483562) :
    ran2Scale y = AM * (y : Rat) := by
  simp only [ran2Scale]
  rw [if_neg]
  have hy : (y : Rat) ≤ 2147483562 := by exact_mod_cast h
  have h1 : AM * (y : Rat) ≤ AM * 2147483562 :=
    mul_le_mul_of_nonneg_left hy (le_of_lt AM_pos)
  have h2 : AM * (2147483562 : Rat) < RNMX := by
    norm_num [AM, IM1, RNMX, DBL_EPSILON]
  exact not_lt.mpr (by linarith)

/-- Two states with the same one-call behavior generate the same state
stream. -/
lemma ran2Iter_congr (a b : Ran2State) (h : ran2Call a = ran2Call b) :
    ∀ n : Nat, ran2Iter a (n + 1) = ran2Iter b (n + 1) := by
  intro n
  induction n with
  | zero => simp [ran2Iter, h]
  | succ m ih =>
      show (ran2Iter a (m + 1)).bind ran2Call
        = (ran2Iter b (m + 1)).bind ran2Call
      rw [ih]

/-- Two states with the same one-call behavior generate the same output
stream. -/
lemma ran2Out_congr (a b : Ran2State) (h : ran2Call a = ran2Call b) :
    ∀ n : Nat, ran2Out a n = ran2Out b n := by
  intro n
  cases n with
  | zero => simp [ran2Out, ran2Iter, ran2, h]
  | succ m => rw [ran2Out, ran2Out, ran2Iter_congr a b h m]

/-- One call from a state that is either weakly invariant or ready to
initialize from an in-range non-positive seed succeeds and lands in the
weak invariant with a positive selector. -/
lemma ran2Call_good (t : Ran2State)
    (h : Ran2WeakInv t ∨
      (t.iv.length = 32 ∧ -2147483562 ≤ t.idum ∧ t.idum ≤ 0)) :
    ∃ u, ran2Call t = some u ∧ Ran2WeakInv u ∧ 1 ≤ u.iy := by
  rcases h with hw | ⟨hlen, hs1, hs2⟩
  · have hpos : ¬ t.idum ≤ 0 := by
      obtain ⟨h1, _⟩ := hw
      omega
    rw [ran2Call, if_neg hpos]
    exact steadyStep_weak t hw
  · rw [ran2Call, if_pos hs2]
    exact steadyStep_weak _ (ran2InitState_weak t hlen hs1 hs2)

/-- From a fresh caller state with seed of magnitude at most `IMM1`, every
iterate exists and is weakly invariant (or still awaiting initialization). -/
lemma ran2Iter_good (s : Int) (h1 : -2147483562 ≤ s) (h2 : s ≤ 2147483562) :
    ∀ n : Nat, ∃ t, ran2Iter (freshState s) n = some t ∧
      (Ran2WeakInv t ∨
        (t.iv.length = 32 ∧ -2147483562 ≤ t.idum ∧ t.idum ≤ 0)) := by
  intro n
  induction n with
  | zero =>
      refine ⟨freshState s, rfl, ?_⟩
      have hidum : (freshState s).idum = s := rfl
      have hidum2 : (freshState s).idum2 = 123456789 := rfl
      have hiy : (freshState s).iy = 0 := rfl
      have hiv : (freshState s).iv = List.replicate 32 0 := rfl
      rcases le_or_lt s 0 with hs | hs
      · right
        rw [hiv, hidum]
        exact ⟨by simp, h1, hs⟩
      · left
        refine ⟨?_, ?_, ?_, ?_, ?_, ?_, ?_, ?_⟩
        · rw [hidum]; omega
        · rw [hidum]; omega
        · rw [hidum2]; omega
        · rw [hidum2]; omega
        · rw [hiy]
        · rw [hiy]; omega
        · rw [hiv]; simp
        · intro i hi
          rw [hiv, getD_replicate i]
          omega
  | succ m ih =>
      obtain ⟨t, hit, hg⟩ := ih
      obtain ⟨u, hcall, hu, hyu⟩ := ran2Call_good t hg
      refine ⟨u, ?_, Or.inl hu⟩
      rw [ran2Iter, hit]
      simpa using hcall

/-- From a fresh caller state with non-positive seed of magnitude at most
`IM2 - 1`, every state reached after at least one call exists and is
strongly invariant. -/
lemma ran2Iter_strong (s : Int) (h1 : -2147483398 ≤ s) (h2 : s ≤ 0) :
    ∀ n : Nat, ∃ t, ran2Iter (freshState s) (n + 1) = some t ∧ Ran2Inv t := by
  intro n
  induction n with
  | zero =>
      have hlen : (freshState s).iv.length = 32 := by simp [freshState, NTAB]
      have hinit := ran2InitState_strong (freshState s) hlen h1 h2
      obtain ⟨u, hstep, hu⟩ := steadyStep_strong _ hinit
      refine ⟨u, ?_, hu⟩
      show ran2Call (freshState s) = some u
      rw [ran2Call, if_pos (show (freshState s).idum ≤ 0 from h2)]
      exact hstep
  | succ m ih =>
      obtain ⟨t, hit, ht⟩ := ih
      obtain ⟨u, hstep, hu⟩ := steadyStep_strong t ht
      refine ⟨u, ?_, hu⟩
      show (ran2Iter (freshState s) (m + 1)).bind ran2Call = some u
      rw [hit]
      show ran2Call t = some u
      rw [ran2Call, if_neg (by
        obtain ⟨ha, _⟩ := ht
        omega)]
      exact hstep

/-- Claim C2: when `ran2` is called with a non-positive seed it first
normalizes the seed to a positive magnitude (1 when the magnitude is 0),
copies it into the secondary seed, performs exactly 40 warm-up iterations
of the primary recurrence discarding the first 8 results and storing the
remaining 32 into the shuffle table in reverse fill order (slot `j` gets
the `(40-j)`-th iterate), and sets the cached selector from slot 0 (the
40th iterate); this initialization runs only on calls whose seed is
non-positive. -/
theorem ran2_initialization :
    (∀ t : Ran2State, 0 < t.idum → ran2Call t = steadyStep t) ∧
    (∀ t : Ran2State, t.idum ≤ 0 →
      ran2Call t = steadyStep (ran2InitState t)) ∧
    (∀ t : Ran2State, t.idum ≤ 0 → t.iv.length = 32 →
      (ran2InitState t).idum2 = max 1 (-t.idum) ∧
      (ran2InitState t).idum = schragePow 40 (max 1 (-t.idum)) ∧
      (ran2InitState t).iy = schragePow 40 (max 1 (-t.idum)) ∧
      (ran2InitState t).iv.length = 32 ∧
      ∀ j : Nat, j < 32 →
        (ran2InitState t).iv.getD j 0 = schragePow (40 - j) (max 1 (-t.idum))) := by
  refine ⟨?_, ?_, ?_⟩
  · intro t ht
    rw [ran2Call, if_neg (by omega)]
  · intro t ht
    rw [ran2Call, if_pos ht]
  · intro t ht hlen
    have hmax : (if -t.idum < 1 then 1 else -t.idum) = max 1 (-t.idum) := by
      split <;> omega
    refine ⟨?_, ?_, ?_, ?_, ?_⟩
    · rw [ran2InitState_idum2, hmax]
    · rw [ran2InitState_idum, hmax]
    · rw [ran2InitState_iy t hlen, hmax]
    · rw [ran2InitState_length, hlen]
    · intro j hj
      rw [ran2InitState_getD t hlen j hj, hmax]

/-- Witness for C2 at the fresh state with seed `-5`: the normalized seed
5 is copied into the secondary seed, and slot 31 of the table holds the
9th iterate (the first 8 warm-up results were discarded). -/
theorem ran2_initialization_witness :
    ((freshState (-5)).idum ≤ 0 ∧ (freshState (-5)).iv.length = 32) ∧
    (ran2InitState (freshState (-5))).idum2 = max 1 (-(freshState (-5)).idum) ∧
    (ran2InitState (freshState (-5))).iv.getD 31 0 =
      schragePow (40 - 31) (max 1 (-(freshState (-5)).idum)) :=
  ⟨⟨by decide, by decide⟩,
   (ran2_initialization.2.2 (freshState (-5)) (by decide) (by decide)).1,
   (ran2_initialization.2.2 (freshState (-5)) (by decide) (by decide)).2.2.2.2
     31 (by decide)⟩

/-- Claim C3 (amended): for a first call made with any seed of magnitude
at most 2147483562, every subsequent `ran2` call returns a value `v` with
`0 < v < 1`.  (For larger magnitudes the claim fails: see the
counterexample, where the generator performs an out-of-bounds shuffle
table access.) -/
theorem ran2_output_in_unit_interval (s : Int)
    (h1 : -2147483562 ≤ s) (h2 : s ≤ 2147483562) (n : Nat) :
    ∃ v, ran2Out (freshState s) n = some v ∧ 0 < v ∧ v < 1 := by
  obtain ⟨t, hit, hg⟩ := ran2Iter_good s h1 h2 n
  obtain ⟨u, hcall, hu, hyu⟩ := ran2Call_good t hg
  refine ⟨ran2Scale u.iy, ?_, ran2Scale_pos u.iy hyu, ran2Scale_lt_one u.iy⟩
  rw [ran2Out, hit]
  simp [ran2, hcall]

/-- Witness for C3 at seed `-1`, first call. -/
theorem ran2_output_in_unit_interval_witness :
    ((-2147483562 : Int) ≤ -1 ∧ (-1 : Int) ≤ 2147483562) ∧
    ∃ v, ran2Out (freshState (-1)) 0 = some v ∧ 0 < v ∧ v < 1 :=
  ⟨⟨by decide, by decide⟩,
   ran2_output_in_unit_interval (-1) (by decide) (by decide) 0⟩

set_option maxRecDepth 100000 in
set_option maxHeartbeats 1000000 in
/-- Counterexample to C3 as stated: with the (arbitrary) integer seed
`2^62`, the third `ran2` call computes the shuffle index
`j = iy/NDIV = 1123180171` and reads `iv[1123180171]`, far outside the
32-entry table -- undefined behavior in C -- so no value in (0,1) is
returned.  (The first call leaves the seed variable negative, the second
call therefore re-initializes with the huge magnitude and leaves the
cached selector at 75375343101667101.) -/
theorem ran2_output_counterexample :
    ran2Out (freshState 4611686018427387904) 2 = none := by decide

/-- Claim C10 (amended): for a first call with a non-positive seed of
magnitude at most 2147483398, every reachable state satisfies the strong
invariant -- primary state in `[1, 2147483562]`, secondary state in
`[1, 2147483398]`, cached selector in `[1, 2147483562]` -- and hence the
shuffle index `j = iy/NDIV` lies in `[0, 31]` and every access to the
32-entry table is in bounds.  (For magnitude 2147483563 the invariant
fails: see the counterexample.) -/
theorem ran2_reachable_invariant (s : Int) (n : Nat)
    (h1 : -2147483398 ≤ s) (h2 : s ≤ 0) :
    ∃ t, ran2Iter (freshState s) (n + 1) = some t ∧ Ran2Inv t ∧
      0 ≤ t.iy.tdiv NDIV ∧ t.iy.tdiv NDIV < 32 ∧
      (t.iy.tdiv NDIV).toNat < t.iv.length := by
  obtain ⟨t, hit, ht⟩ := ran2Iter_strong s h1 h2 n
  obtain ⟨ha, hb, hc, hd, he, hf, hg, hh⟩ := ht
  have hj := ran2_j_bounds t.iy (by omega) hf
  exact ⟨t, hit, ⟨ha, hb, hc, hd, he, hf, hg, hh⟩, hj.1, hj.2, by omega⟩

/-- Witness for C10 at seed `-1` after one call. -/
theorem ran2_reachable_invariant_witness :
    ((-2147483398 : Int) ≤ -1 ∧ (-1 : Int) ≤ 0) ∧
    ∃ t, ran2Iter (freshState (-1)) 1 = some t ∧ Ran2Inv t ∧
      0 ≤ t.iy.tdiv NDIV ∧ t.iy.tdiv NDIV < 32 ∧
      (t.iy.tdiv NDIV).toNat < t.iv.length :=
  ⟨⟨by decide, by decide⟩, ran2_reachable_invariant (-1) 0 (by decide) (by decide)⟩

set_option maxRecDepth 100000 in
set_option maxHeartbeats 1000000 in
/-- Counterexample to C10 as stated: initializing with the non-positive
seed `-2147483563` (the magnitude is the modulus `IM1`) drives the primary
state to 0 already during the warm-up loop, so the state reached after the
first call has primary state 0, outside the claimed range
`[1, 2147483562]`. -/
theorem ran2_invariant_counterexample :
    (ran2Iter (freshState (-2147483563)) 1).map Ran2State.idum = some 0 := by
  decide

/-- Claim C4: the final step scales the combined selector by `AM = 1/IM1`
and clamps: whenever `AM*iy` would equal or exceed `RNMX = 1-DBL_EPSILON`
the value `RNMX` itself is returned, and otherwise `AM*iy` is returned
unchanged; and the deviate returned by a successful `ran2` call is exactly
this scaling applied to the freshly cached selector. -/
theorem ran2_clamp_correct :
    (∀ y : Int, RNMX ≤ AM * (y : Rat) → ran2Scale y = RNMX) ∧
    (∀ y : Int, AM * (y : Rat) < RNMX → ran2Scale y = AM * (y : Rat)) ∧
    (∀ (s : Ran2State) (p : Rat × Ran2State), ran2 s = some p →
      p.1 = ran2Scale p.2.iy) := by
  refine ⟨?_, ?_, ?_⟩
  · intro y h
    simp only [ran2Scale]
    split
    · rfl
    · have hle := not_lt.mp (by assumption : ¬ RNMX < AM * (y : Rat))
      exact le_antisymm hle h
  · intro y h
    simp only [ran2Scale]
    rw [if_neg (not_lt.mpr (le_of_lt h))]
  · intro s p hp
    rw [ran2] at hp
    obtain ⟨u, _, hfu⟩ := Option.map_eq_some'.mp hp
    rw [← hfu]

/-- The mock selector 4294967126 scales to exactly 2, beyond the clamp. -/
lemma ran2_clamp_fact_hi : RNMX ≤ AM * ((4294967126 : Int) : Rat) := by
  norm_num [AM, IM1, RNMX, DBL_EPSILON]

/-- The selector produced by the first call from seed `-1` is below the
clamp. -/
lemma ran2_clamp_fact_lo : AM * ((612850790 : Int) : Rat) < RNMX := by
  norm_num [AM, IM1, RNMX, DBL_EPSILON]

/-- Witness for C4: a mock selector that scales to 2 is clamped to `RNMX`,
an in-range selector is returned as `AM*iy` unchanged, and the first call
from the fresh state with seed 1 returns the scaling of its new
selector. -/
theorem ran2_clamp_correct_witness :
    ran2Scale 4294967126 = RNMX ∧
    ran2Scale 612850790 = AM * ((612850790 : Int) : Rat) ∧
    (ran2Scale 1407495835,
      ({ idum := 40014, idum2 := 739987727,
         iv := (List.replicate 32 (0 : Int)).set 0 40014,
         iy := 1407495835 } : Ran2State)).1
      = ran2Scale
        ({ idum := 40014, idum2 := 739987727,
           iv := (List.replicate 32 (0 : Int)).set 0 40014,
           iy := 1407495835 } : Ran2State).iy :=
  ⟨ran2_clamp_correct.1 _ ran2_clamp_fact_hi,
   ran2_clamp_correct.2.1 _ ran2_clamp_fact_lo,
   ran2_clamp_correct.2.2 (freshState 1) _ rfl⟩

/-- Extensionality for generator states. -/
lemma ran2State_ext (x y : Ran2State) (h1 : x.idum = y.idum)
    (h2 : x.idum2 = y.idum2) (h3 : x.iv = y.iv) (h4 : x.iy = y.iy) :
    x = y := by
  cases x
  cases y
  cases h1
  cases h2
  cases h3
  cases h4
  rfl

/-- Claim C5: two generator states independently initialized with the same
negative seed (arbitrary residual statics, 32-entry tables) produce
identical output sequences for at least 10000 consecutive calls. -/
theorem ran2_deterministic (seed : Int) (a b : Ran2State)
    (hseed : seed < 0) (ha : a.idum = seed) (hb : b.idum = seed)
    (hal : a.iv.length = 32) (hbl : b.iv.length = 32)
    (n : Nat) (hn : n < 10000) :
    ran2Out a n = ran2Out b n := by
  apply ran2Out_congr
  have hva : (if -a.idum < 1 then 1 else -a.idum)
      = (if -b.idum < 1 then 1 else -b.idum) := by
    rw [ha, hb]
  have hinit : ran2InitState a = ran2InitState b := by
    have hiv : (ran2InitState a).iv = (ran2InitState b).iv := by
      apply list_ext_getD
      · rw [ran2InitState_length, ran2InitState_length, hal, hbl]
      · intro i hi
        have hi' : i < 32 := by
          rw [ran2InitState_length, hal] at hi
          exact hi
        rw [ran2InitState_getD a hal i hi', ran2InitState_getD b hbl i hi',
          hva]
    have h1 : (ran2InitState a).idum = (ran2InitState b).idum := by
      rw [ran2InitState_idum, ran2InitState_idum, hva]
    have h2 : (ran2InitState a).idum2 = (ran2InitState b).idum2 := by
      rw [ran2InitState_idum2, ran2InitState_idum2, hva]
    have h4 : (ran2InitState a).iy = (ran2InitState b).iy := by
      rw [ran2InitState_iy a hal, ran2InitState_iy b hbl, hva]
    exact ran2State_ext _ _ h1 h2 hiv h4
  rw [ran2Call, ran2Call, if_pos (show a.idum ≤ 0 by omega),
    if_pos (show b.idum ≤ 0 by omega), hinit]

/-- Witness for C5: seed `-3`, one fresh caller state and one state with
different residual statics, at the 6th call. -/
theorem ran2_deterministic_witness :
    ran2Out (freshState (-3)) 5 =
      ran2Out (Ran2State.mk (-3) 987 (List.replicate 32 5) 77) 5 :=
  ran2_deterministic (-3) _ _ (by decide) rfl rfl (by decide) (by decide)
    5 (by decide)

set_option maxRecDepth 100000 in
set_option maxHeartbeats 1000000 in
/-- Claim C6: a generator whose first call is made with seed 0 produces
exactly the same output sequence, call for call, as one whose first call
is made with seed `-1`: both normalize to magnitude 1 during
initialization. -/
theorem ran2_seed_zero_eq_seed_neg_one (n : Nat) :
    ran2Out (freshState 0) n = ran2Out (freshState (-1)) n :=
  ran2Out_congr _ _ (by decide) n

set_option maxRecDepth 100000 in
set_option maxHeartbeats 1000000 in
/-- Claim C7: the streams seeded with `-1` and `-2` differ already on the
very first call. -/
theorem ran2_distinct_streams :
    ran2Out (freshState (-1)) 0 ≠ ran2Out (freshState (-2)) 0 := by
  have h1 : (ran2Call (freshState (-1))).map Ran2State.iy
      = some 612850790 := by decide
  have h2 : (ran2Call (freshState (-2))).map Ran2State.iy
      = some 890935924 := by decide
  obtain ⟨u1, hu1, hy1⟩ := Option.map_eq_some'.mp h1
  obtain ⟨u2, hu2, hy2⟩ := Option.map_eq_some'.mp h2
  have e1 : ran2Out (freshState (-1)) 0 = some (ran2Scale u1.iy) := by
    rw [ran2Out]
    simp [ran2Iter, ran2, hu1]
  have e2 : ran2Out (freshState (-2)) 0 = some (ran2Scale u2.iy) := by
    rw [ran2Out]
    simp [ran2Iter, ran2, hu2]
  rw [e1, e2, hy1, hy2,
    ran2Scale_noclamp 612850790 (by decide),
    ran2Scale_noclamp 890935924 (by decide)]
  intro hcontra
  have hmul := Option.some.inj hcontra
  have hc := mul_left_cancel₀ (ne_of_gt AM_pos) hmul
  norm_num at hc

/-- Claim C8: `ran2` is total over every seed a 64-bit C `long int` can
hold -- the first call returns a value for every initial seed, with no
error condition: a non-positive seed is normalized to the positive
magnitude `max 1 (-seed)` before use, and a positive seed skips
initialization and is accepted as the state directly. -/
theorem ran2_total (seed : Int)
    (h1 : -9223372036854775808 ≤ seed) (h2 : seed ≤ 9223372036854775807) :
    (∃ p, ran2 (freshState seed) = some p) ∧
    (seed ≤ 0 → (ran2InitState (freshState seed)).idum2 = max 1 (-seed)) ∧
    (0 < seed → ran2Call (freshState seed) = steadyStep (freshState seed)) := by
  have hfidum : (freshState seed).idum = seed := rfl
  refine ⟨?_, ?_, ?_⟩
  · rcases le_or_lt seed 0 with hs | hs
    · have hlen : (freshState seed).iv.length = 32 := by
        simp [freshState, NTAB]
      have hv0 : ((if -(freshState seed).idum < 1 then 1
          else -(freshState seed).idum) : Int).natAbs
          ≤ 2147483563 * 4 ^ 19 := by
        rw [hfidum]
        have hpow : (2147483563 : Nat) * 4 ^ 19
            = 590295786994083561472 := by norm_num
        rw [hpow]
        split <;> omega
      have h20 := schragePow_into 19 _ hv0
      have h40 : 0 ≤ schragePow 40 (if -(freshState seed).idum < 1 then 1
            else -(freshState seed).idum) ∧
          schragePow 40 (if -(freshState seed).idum < 1 then 1
            else -(freshState seed).idum) ≤ 2147483562 := by
        rw [show (40 : Nat) = 20 + 20 from rfl, schragePow_add]
        exact schragePow_range 20 _ h20.1 h20.2
      have hiy := ran2InitState_iy (freshState seed) hlen
      have hjb := ran2_j_bounds (ran2InitState (freshState seed)).iy
        (by rw [hiy]; exact h40.1) (by rw [hiy]; exact h40.2)
      obtain ⟨u, hu⟩ : ∃ u, steadyStep (ran2InitState (freshState seed))
          = some u := ⟨_, steadyStep_eq _ hjb⟩
      refine ⟨(ran2Scale u.iy, u), ?_⟩
      rw [ran2, ran2Call,
        if_pos (show (freshState seed).idum ≤ 0 by rw [hfidum]; exact hs),
        hu]
      rfl
    · have hjb : 0 ≤ (freshState seed).iy.tdiv NDIV ∧
          (freshState seed).iy.tdiv NDIV < 32 := by
        have hfiy : (freshState seed).iy = 0 := rfl
        rw [hfiy]
        decide
      obtain ⟨u, hu⟩ : ∃ u, steadyStep (freshState seed) = some u :=
        ⟨_, steadyStep_eq _ hjb⟩
      refine ⟨(ran2Scale u.iy, u), ?_⟩
      rw [ran2, ran2Call,
        if_neg (show ¬ (freshState seed).idum ≤ 0 by rw [hfidum]; omega),
        hu]
      rfl
  · intro hs
    rw [ran2InitState_idum2, hfidum]
    split <;> omega
  · intro hs
    rw [ran2Call,
      if_neg (show ¬ (freshState seed).idum ≤ 0 by rw [hfidum]; omega)]

/-- Witness for C8 at seed `-987654321`. -/
theorem ran2_total_witness :
    ((-9223372036854775808 : Int) ≤ -987654321 ∧
      (-987654321 : Int) ≤ 9223372036854775807) ∧
    ∃ p, ran2 (freshState (-987654321)) = some p :=
  ⟨⟨by decide, by decide⟩,
   (ran2_total (-987654321) (by decide) (by decide)).1⟩

/-- Claim C9: the `problem` routine fails fatally, with no retry or
recovery and committing no field values, when the grid is 1D in the second
dimension (`Nx2 == 1`), when a data file needed by the `ipert == 4`
density-wave mode cannot be opened, and when `ipert == 4` is requested
with domain bounds other than `x1min = -4.7965`, `x1max = 4.7965`; the
checks fire in source order. -/
theorem problem_fatal_checks (e : ProblemEnv) :
    (e.Nx2 = 1 → problemChecks e = Except.error ProblemError.gridDim) ∧
    (e.Nx2 ≠ 1 → e.ipert = 4 → e.Nx1 = 160 → e.file160 = false →
      problemChecks e = Except.error ProblemError.fileOpen160) ∧
    (e.Nx2 ≠ 1 → e.ipert = 4 → e.Nx1 = 40 → e.file40 = false →
      problemChecks e = Except.error ProblemError.fileOpen40) ∧
    (e.Nx2 ≠ 1 → e.ipert = 4 → (e.Nx1 = 160 → e.file160 = true) →
      (e.Nx1 = 40 → e.file40 = true) → e.x1min ≠ -(47965 / 10000 : Rat) →
      problemChecks e = Except.error ProblemError.xminMismatch) ∧
    (e.Nx2 ≠ 1 → e.ipert = 4 → (e.Nx1 = 160 → e.file160 = true) →
      (e.Nx1 = 40 → e.file40 = true) → e.x1min = -(47965 / 10000 : Rat) →
      e.x1max ≠ (47965 / 10000 : Rat) →
      problemChecks e = Except.error ProblemError.xmaxMismatch) ∧
    (∀ err : ProblemError, problemChecks e = Except.error err →
      problemCommitsFields e = false) := by
  refine ⟨?_, ?_, ?_, ?_, ?_, ?_⟩
  · intro h
    rw [problemChecks, if_pos h]
  · intro hg hp h160 hf
    rw [problemChecks, if_neg hg, if_pos hp, if_pos ⟨h160, hf⟩]
  · intro hg hp h40 hf
    rw [problemChecks, if_neg hg, if_pos hp,
      if_neg (show ¬ (e.Nx1 = 160 ∧ e.file160 = false) by
        rintro ⟨he, _⟩
        rw [h40] at he
        exact absurd he (by decide)),
      if_pos ⟨h40, hf⟩]
  · intro hg hp hf160 hf40 hx
    rw [problemChecks, if_neg hg, if_pos hp,
      if_neg (show ¬ (e.Nx1 = 160 ∧ e.file160 = false) by
        rintro ⟨he, hf⟩
        rw [hf160 he] at hf
        exact absurd hf (by decide)),
      if_neg (show ¬ (e.Nx1 = 40 ∧ e.file40 = false) by
        rintro ⟨he, hf⟩
        rw [hf40 he] at hf
        exact absurd hf (by decide)),
      if_pos hx]
  · intro hg hp hf160 hf40 hxeq hx
    rw [problemChecks, if_neg hg, if_pos hp,
      if_neg (show ¬ (e.Nx1 = 160 ∧ e.file160 = false) by
        rintro ⟨he, hf⟩
        rw [hf160 he] at hf
        exact absurd hf (by decide)),
      if_neg (show ¬ (e.Nx1 = 40 ∧ e.file40 = false) by
        rintro ⟨he, hf⟩
        rw [hf40 he] at hf
        exact absurd hf (by decide)),
      if_neg (show ¬ (e.x1min ≠ -(47965 / 10000 : Rat)) from
        not_ne_iff.mpr hxeq),
      if_pos hx]
  · intro err herr
    simp [problemCommitsFields, herr]

/-- A zero lower bound differs from the required `-4.7965`. -/
lemma x1min_zero_mismatch : (0 : Rat) ≠ -(47965 / 10000 : Rat) := by
  norm_num

/-- Witness for C9: concrete environments hitting the grid-dimension
check, the unreadable-file check, and the domain-bound check. -/
theorem problem_fatal_checks_witness :
    problemChecks (ProblemEnv.mk 160 1 true true 4 0 0)
        = Except.error ProblemError.gridDim ∧
    problemChecks (ProblemEnv.mk 160 8 false true 4 0 0)
        = Except.error ProblemError.fileOpen160 ∧
    problemChecks (ProblemEnv.mk 160 8 true true 4 0 0)
        = Except.error ProblemError.xminMismatch :=
  ⟨(problem_fatal_checks _).1 rfl,
   (problem_fatal_checks _).2.1 (by decide) rfl rfl rfl,
   (problem_fatal_checks _).2.2.2.1 (by decide) rfl (fun _ => rfl)
     (fun h => absurd h (by decide)) x1min_zero_mismatch⟩
